import Mathlib

set_option maxRecDepth 8000

/-!
Verification of the SafarGPT backend against its natural-language
specification.

The development shallowly embeds the NestJS backend of the repository:

* `ChatService` (`chat`, `chatStream`, `persistIfNeeded`, `ensureChatRecord`,
  `renameChat`, `deleteChat`) over an explicit store of chat and message rows,
* the SSE framing loop of `ChatController.chatStream`,
* `JwtAuthGuard.canActivate`, `OptionalJwtGuard.canActivate` and
  `RolesGuard.canActivate`.

External collaborators (the OpenAI completion API, the Supabase client, the
JWT library) are modelled as explicit parameters: the upstream completion is
an argument, storage is explicit state, token verification is a function
argument, and the outcome of the profile-table query consulted by the roles
guard is a parameter of the guard.

JavaScript value semantics that the source relies on are made explicit:
falsiness of `undefined` and of the empty string (`jsTruthyStr`), the `||`
operator on possibly-absent strings (`jsOrStr`), and the nullish `??`
operator (an `Option` match).
-/

namespace SafarGPT

/-- Truthiness of a JavaScript `string | undefined` value: `undefined` and
the empty string are falsy, every other string is truthy. -/
def jsTruthyStr : Option String → Bool
  | none => false
  | some s => !s.isEmpty

/-- The JavaScript `||` operator on `string | undefined` values: yields the
left operand when it is truthy, otherwise the right operand. -/
def jsOrStr (a b : Option String) : Option String :=
  if jsTruthyStr a then a else b

/-- Message roles, from the `ChatMessage` interface of `chat.service.ts`
(`role: 'system' | 'user' | 'assistant'`). -/
inductive Role where
  | system
  | user
  | assistant
deriving DecidableEq, Repr

/-- One element of the caller-supplied conversation, from the `ChatMessage`
interface of `chat.service.ts`. -/
structure ChatMessage where
  role : Role
  content : String
deriving DecidableEq, Repr

/-- Options of the chat operations, from the `ChatOptions` interface of
`chat.service.ts`.  The model union type is kept as a plain string. -/
structure ChatOptions where
  model : Option String
  userId : Option String
  chatId : Option String
deriving DecidableEq, Repr

/-- The non-streamed completion returned by the upstream API
(`completion.choices[0].message`).  The OpenAI SDK fixes the `role` field of
this message to the literal type `'assistant'`, so only the (nullable)
`content` field varies. -/
structure AssistantMessage where
  content : Option String
deriving DecidableEq, Repr

/-- A row of the `chats` table as this code writes it: the generated id, the
owning `user_id` and the `title`. -/
structure ChatRow where
  id : String
  user_id : String
  title : String
deriving DecidableEq, Repr

/-- A row of the `messages` table as this code writes it.  The `content`
column is nullable: the synchronous path inserts the upstream message content
unchanged, which the SDK types as `string | null`. -/
structure MessageRow where
  chat_id : String
  role : Role
  content : Option String
  model : String
deriving DecidableEq, Repr

/-- The relevant slice of the external Supabase store: the `chats` and
`messages` tables, plus a counter from which the store derives the id of a
freshly inserted chat row (standing in for the database-generated uuid). -/
structure Store where
  chats : List ChatRow
  messages : List MessageRow
  nextChatId : Nat
deriving DecidableEq, Repr

/-- Model of `ChatService.ensureChatRecord`: when a (truthy) chat id is supplied it is
returned unchanged and nothing is written; otherwise a new `chats` row with
the given user id and `title ?? 'New chat'` is inserted and its generated id
returned. -/
def ensureChatRecord (chatId : Option String) (userId : String)
    (title : Option String) (store : Store) : String × Store :=
  if jsTruthyStr chatId then
    (chatId.getD "", store)
  else
    let newId := toString store.nextChatId
    (newId,
      ⟨store.chats ++ [⟨newId, userId, title.getD "New chat"⟩],
        store.messages, store.nextChatId + 1⟩)

/-- Title derivation shared (textually duplicated) by `ChatService.chat` and
`ChatService.persistIfNeeded`:
`messages.find(m => m.role === 'user') ?? messages[0]`, then
`firstUserMsg?.content?.slice(0, 25) ?? 'New chat'`. -/
def deriveTitle (messages : List ChatMessage) : String :=
  let firstUserMsg := (messages.find? (fun m => m.role = Role.user)).orElse
    (fun _ => messages.head?)
  match firstUserMsg with
  | some m => m.content.take 25
  | none => "New chat"

/-- Model of `ChatService.chat`: calls the upstream completion once (passed here as
`completion`), persists the latest user message and the assistant reply when
a truthy user id is supplied, and returns `assistantMessage.content ?? ''`.
An empty history with a user id reaches `messages[messages.length - 1].role`
on `undefined`, a thrown `TypeError`, modelled as `Except.error`. -/
def chat (messages : List ChatMessage) (options : ChatOptions)
    (completion : AssistantMessage) (store : Store) :
    Except String (String × Store) :=
  let model := options.model.getD "gpt-4o"
  if jsTruthyStr options.userId then
    let userId := options.userId.getD ""
    let title := deriveTitle messages
    let ecr := ensureChatRecord options.chatId userId (some title) store
    let chatId := ecr.1
    let store₁ := ecr.2
    match messages.getLast? with
    | none => .error "TypeError"
    | some latestUserMessage =>
        let store₂ : Store :=
          ⟨store₁.chats,
            store₁.messages ++
              [⟨chatId, latestUserMessage.role, some latestUserMessage.content, model⟩,
               ⟨chatId, Role.assistant, completion.content, model⟩],
            store₁.nextChatId⟩
        .ok (completion.content.getD "", store₂)
  else
    .ok (completion.content.getD "", store)

/-- Model of `ChatService.persistIfNeeded`: returns immediately when no truthy user id
is supplied; otherwise resolves or creates the chat record and inserts the
latest user message and the accumulated assistant reply (role `'assistant'`,
content the accumulated string). -/
def persistIfNeeded (messages : List ChatMessage) (assistantContent : String)
    (options : ChatOptions) (store : Store) : Except String Store :=
  if jsTruthyStr options.userId then
    let userId := options.userId.getD ""
    let model := options.model.getD "gpt-4o"
    let title := deriveTitle messages
    let ecr := ensureChatRecord options.chatId userId (some title) store
    let chatId := ecr.1
    let store₁ := ecr.2
    match messages.getLast? with
    | none => .error "TypeError"
    | some latestUserMessage =>
        .ok ⟨store₁.chats,
          store₁.messages ++
            [⟨chatId, latestUserMessage.role, some latestUserMessage.content, model⟩,
             ⟨chatId, Role.assistant, some assistantContent, model⟩],
          store₁.nextChatId⟩
  else
    .ok store

/-- The generator loop of `ChatService.chatStream`: each upstream chunk
contributes `part.choices[0]?.delta?.content ?? ''` (here the chunk is that
optional delta content); non-empty tokens are yielded and appended to the
accumulator.  Returns the yielded tokens and the final accumulated answer. -/
def chatStreamRun : List (Option String) → String → List String × String
  | [], fullAnswer => ([], fullAnswer)
  | part :: rest, fullAnswer =>
      let token := part.getD ""
      if token = "" then
        chatStreamRun rest fullAnswer
      else
        (token :: (chatStreamRun rest (fullAnswer ++ token)).1,
          (chatStreamRun rest (fullAnswer ++ token)).2)

/-- The tokens yielded by `ChatService.chatStream` for a given sequence of
upstream chunks. -/
def serviceTokens (chunks : List (Option String)) : List String :=
  (chatStreamRun chunks "").1

/-- The accumulated `fullAnswer` of `ChatService.chatStream` once the
upstream stream is drained. -/
def fullAnswer (chunks : List (Option String)) : String :=
  (chatStreamRun chunks "").2

/-- The complete streaming operation: the yielded token stream followed by
the persistence step `persistIfNeeded(messages, fullAnswer, options)` run
against the store. -/
def chatStreamResult (chunks : List (Option String)) (messages : List ChatMessage)
    (options : ChatOptions) (store : Store) :
    List String × Except String Store :=
  (serviceTokens chunks, persistIfNeeded messages (fullAnswer chunks) options store)

/-- Model of `ChatService.renameChat`: the update keyed on both the chat id and the owning user id
retitles exactly the chat rows matching both the id and the owning user. -/
def renameChat (chatId : String) (userId : String) (title : String)
    (store : Store) : Store :=
  ⟨store.chats.map (fun c =>
      if c.id = chatId ∧ c.user_id = userId then ⟨c.id, c.user_id, title⟩ else c),
    store.messages, store.nextChatId⟩

/-- Model of `ChatService.deleteChat`: the deletion keyed on both the chat id and the owning user id
removes exactly the chat rows matching both the id and the owning user
(cascading removal of the chat's messages is a database policy, not this
code). -/
def deleteChat (chatId : String) (userId : String) (store : Store) : Store :=
  ⟨store.chats.filter (fun c => !(c.id = chatId ∧ c.user_id = userId : Bool)),
    store.messages, store.nextChatId⟩

instance {ε α : Type} [DecidableEq ε] [DecidableEq α] : DecidableEq (Except ε α) := fun a b =>
  match a, b with
  | .ok x, .ok y =>
      if h : x = y then isTrue (by rw [h]) else isFalse (by intro hc; cases hc; exact h rfl)
  | .error x, .error y =>
      if h : x = y then isTrue (by rw [h]) else isFalse (by intro hc; cases hc; exact h rfl)
  | .ok _, .error _ => isFalse (by intro hc; cases hc)
  | .error _, .ok _ => isFalse (by intro hc; cases hc)

/-- The newline escaping of `ChatController.chatStream`:
`token.replace(/\n/g, '\\n')` replaces every newline character by the
two-character sequence backslash-`n`, scanning left to right. -/
def escNL : List Char → List Char
  | [] => []
  | c :: rest => if c = '\n' then '\\' :: 'n' :: escNL rest else c :: escNL rest

/-- String form of `escNL`, applied to each token before framing. -/
def escapeToken (s : String) : String :=
  ⟨escNL s.data⟩

/-- Modelled from the spec: the inverse transformation the specification
applies to frame payloads, "replacing each backslash-n escape back with a
newline" (the frontend-side un-escaping); leftmost occurrences of
backslash-`n` become a newline, scanning left to right. -/
def unescNL : List Char → List Char
  | [] => []
  | [c] => [c]
  | c₁ :: c₂ :: rest =>
      if c₁ = '\\' ∧ c₂ = 'n' then '\n' :: unescNL rest
      else c₁ :: unescNL (c₂ :: rest)

/-- String form of `unescNL`. -/
def unescapeToken (s : String) : String :=
  ⟨unescNL s.data⟩

/-- Whether a character list contains the two-character sequence
backslash-`n` (the escape sequence itself) as a contiguous subsequence. -/
def hasBackslashN : List Char → Bool
  | [] => false
  | [_] => false
  | c₁ :: c₂ :: rest => (c₁ = '\\' && c₂ = 'n') || hasBackslashN (c₂ :: rest)

/-- The SSE write loop of `ChatController.chatStream`: one
`data:<escaped token>\n\n` write per yielded token, in order, followed by
the terminal `data:[DONE]\n\n` write on normal completion. -/
def writeFrames : List String → List String
  | [] => ["data:[DONE]\n\n"]
  | token :: rest => ("data:" ++ escapeToken token ++ "\n\n") :: writeFrames rest

/-- The full SSE output of the streaming endpoint for a sequence of upstream
chunks: the controller's write loop applied to the tokens yielded by
`ChatService.chatStream`. -/
def sseOutput (chunks : List (Option String)) : List String :=
  writeFrames (serviceTokens chunks)

/-- Observable events of the streaming generator: yielding one token to the
controller, or performing one storage write. -/
inductive StreamEvent where
  | yield (token : String)
  | write
deriving DecidableEq, Repr, BEq

/-- The storage writes performed by `ChatService.persistIfNeeded` once the
upstream stream is drained: none for an anonymous call; otherwise one
`chats` insert when no chat id was supplied, and one `messages` insert
provided the history is non-empty (an empty history throws before the
`messages` insert). -/
def persistWriteEvents (messages : List ChatMessage) (options : ChatOptions) :
    List StreamEvent :=
  if jsTruthyStr options.userId then
    (if jsTruthyStr options.chatId then [] else [StreamEvent.write]) ++
      (match messages.getLast? with
       | none => []
       | some _ => [StreamEvent.write])
  else
    []

/-- Event trace of `ChatService.chatStream`: the generator walks the
upstream chunks in order, yielding each non-empty token as it arrives, and
only after the last chunk performs the persistence step. -/
def chatStreamEvents (messages : List ChatMessage) (options : ChatOptions) :
    List (Option String) → String → List StreamEvent
  | [], _ => persistWriteEvents messages options
  | part :: rest, fullAnswer =>
      let token := part.getD ""
      if token = "" then
        chatStreamEvents messages options rest fullAnswer
      else
        StreamEvent.yield token :: chatStreamEvents messages options rest (fullAnswer ++ token)

/-- Claims decoded from a verified JWT, as the guards read them:
`sub`, `role` and `app_metadata?.role`. -/
structure TokenClaims where
  sub : Option String
  role : Option String
  appMetadataRole : Option String
deriving DecidableEq, Repr

/-- The slice of an incoming HTTP request the auth guards inspect: the
method and the `authorization` header (Express lower-cases header names, so
the `request.headers['authorization'] || request.headers['Authorization']`
lookup reads this one entry). -/
structure GuardRequest where
  method : String
  authorization : Option String
deriving DecidableEq, Repr

/-- JavaScript `String.prototype.split(' ')`: cut the string at every space
character, keeping empty fragments, never returning an empty list. -/
def jsSplitSpaceAux : List Char → List Char → List String
  | [], acc => [⟨acc.reverse⟩]
  | c :: rest, acc =>
      if c = ' ' then (⟨acc.reverse⟩ : String) :: jsSplitSpaceAux rest []
      else jsSplitSpaceAux rest (c :: acc)

/-- JavaScript `authHeader.split(' ')` on a Lean string. -/
def jsSplitSpace (s : String) : List String :=
  jsSplitSpaceAux s.data []

/-- Model of `JwtAuthGuard.canActivate` (the variant used on the protected routes):
allows CORS pre-flight `OPTIONS` requests unconditionally; otherwise requires
a truthy `Authorization` header of the shape `Bearer <token>` and a
successful verification of the token against the shared secret (`verify`
returns the decoded claims, or `none` when `jwt.verify` throws).  Returns
the allow/deny outcome and the claims attached to `request.user`. -/
def canActivateJwt (req : GuardRequest) (verify : String → Option TokenClaims) :
    Bool × Option TokenClaims :=
  if req.method = "OPTIONS" then
    (true, none)
  else if !jsTruthyStr req.authorization then
    (false, none)
  else
    let parts := jsSplitSpace (req.authorization.getD "")
    let scheme := parts.get? 0
    let token := parts.get? 1
    if scheme ≠ some "Bearer" ∨ !jsTruthyStr token then
      (false, none)
    else
      match verify (token.getD "") with
      | some decoded => (true, some decoded)
      | none => (false, none)

/-- Model of `OptionalJwtGuard.canActivate`: a request without a truthy
`Authorization` header is allowed through as anonymous; otherwise the full
verification of `JwtAuthGuard` applies. -/
def canActivateOptionalJwt (req : GuardRequest)
    (verify : String → Option TokenClaims) : Bool × Option TokenClaims :=
  if !jsTruthyStr req.authorization then
    (true, none)
  else
    canActivateJwt req verify

/-- Modelled from the spec: the auth-guard contract of §4.3 — extract an
`Authorization: Bearer <token>` header; the token part must be present and
non-empty and the scheme exactly `Bearer`. -/
def bearerTokenOf (req : GuardRequest) : Option String :=
  match req.authorization with
  | none => none
  | some h =>
      let parts := jsSplitSpace h
      if parts.get? 0 = some "Bearer" ∧ jsTruthyStr (parts.get? 1) then
        parts.get? 1
      else
        none

/-- Modelled from the spec: the strict auth guard as §4.3 and claim C6 state
it — allow `OPTIONS` unconditionally; otherwise deny on a missing header, a
non-`Bearer` scheme, an empty token or failed verification, and on success
attach the decoded claims and allow. -/
def jwtGuardSpec (req : GuardRequest) (verify : String → Option TokenClaims) :
    Bool × Option TokenClaims :=
  if req.method = "OPTIONS" then
    (true, none)
  else
    match bearerTokenOf req with
    | none => (false, none)
    | some t =>
        match verify t with
        | some decoded => (true, some decoded)
        | none => (false, none)

/-- Outcome of the `profile`-table query the roles guard performs for the
caller's subject id: the awaited promise throws, or resolves to
`{ data, error }` where `data` is the possibly-absent row and the row's
`role` column is itself nullable. -/
inductive ProfileLookup where
  | throws
  | result (error : Bool) (data : Option (Option String))
deriving DecidableEq, Repr

/-- Model of `RolesGuard.canActivate`: allows when no required roles are attached;
denies without a user; reads the role claim
(`user.role || user.app_metadata?.role`); when that claim is falsy or not in
the required list and `user.sub` is truthy, queries the profile table,
swallowing errors and thrown exceptions and keeping
`data?.role ?? role`; finally denies on a falsy role and otherwise allows
exactly when the required list contains it. -/
def canActivateRoles (requiredRoles : Option (List String))
    (user : Option TokenClaims) (lookup : ProfileLookup) : Bool :=
  match requiredRoles with
  | none => true
  | some rs =>
      if rs.length = 0 then true
      else
        match user with
        | none => false
        | some u =>
            let role₀ := jsOrStr u.role u.appMetadataRole
            let role₁ :=
              if ((!jsTruthyStr role₀ ||
                    !(match role₀ with
                      | some r => rs.contains r
                      | none => false)) && jsTruthyStr u.sub) then
                match lookup with
                | .throws => role₀
                | .result true _ => role₀
                | .result false data =>
                    match data.bind (fun row => row) with
                    | some dbRole => some dbRole
                    | none => role₀
              else role₀
            match role₁ with
            | none => false
            | some r => if r.isEmpty then false else rs.contains r

/-- Modelled from the spec: the role a claim-based resolution yields — the
role claims embedded in the token, read as the guard reads them. -/
def claimDerivedRole (u : TokenClaims) : Option String :=
  jsOrStr u.role u.appMetadataRole

/-- Modelled from the spec: the role found by the Profile-store lookup keyed
by the subject id — `none` when there is no subject id, when the query
fails, or when no role row is found. -/
def specDbRole (u : TokenClaims) (lookup : ProfileLookup) : Option String :=
  match u.sub with
  | none => none
  | some _ =>
      match lookup with
      | .result false (some (some dbRole)) => some dbRole
      | _ => none

/-- Modelled from the spec: claim C4's role resolution — the claim-derived
role when it is present and already in the required set; otherwise the
Profile-store role when one is found, falling back to the claim-derived
role. -/
def specResolveRole (rs : List String) (u : TokenClaims)
    (lookup : ProfileLookup) : Option String :=
  let c := claimDerivedRole u
  if jsTruthyStr c && (match c with | some r => rs.contains r | none => false) then c
  else
    match specDbRole u lookup with
    | some dbRole => some dbRole
    | none => c

/-- Modelled from the spec: claim C4's guard contract — allow when the
required set is absent or empty; otherwise allow exactly when a role is
resolved and is a member of the required set under exact, case-sensitive
string comparison. -/
def rolesGuardSpec (requiredRoles : Option (List String))
    (user : Option TokenClaims) (lookup : ProfileLookup) : Bool :=
  match requiredRoles with
  | none => true
  | some rs =>
      if rs.length = 0 then true
      else
        match user with
        | none => false
        | some u =>
            match specResolveRole rs u lookup with
            | none => false
            | some r => rs.contains r

theorem hasBackslashN_cons_false {c : Char} {cs : List Char}
    (h : hasBackslashN (c :: cs) = false) : hasBackslashN cs = false := by
  cases cs with
  | nil => rfl
  | cons d ds =>
      simp only [hasBackslashN, Bool.or_eq_false_iff] at h
      exact h.2

theorem escNL_eq_nil_iff {t : List Char} : escNL t = [] ↔ t = [] := by
  cases t with
  | nil => simp [escNL]
  | cons c cs =>
      simp only [escNL]
      by_cases hc : c = '\n' <;> simp [hc]

theorem escNL_head {t : List Char} {d : Char} {L : List Char}
    (h : escNL t = d :: L) : d = '\\' ∨ ∃ rs, t = d :: rs := by
  cases t with
  | nil => simp [escNL] at h
  | cons c cs =>
      simp only [escNL] at h
      by_cases hc : c = '\n'
      · rw [if_pos hc] at h
        exact Or.inl (List.cons.inj h).1.symm
      · rw [if_neg hc] at h
        exact Or.inr ⟨cs, by rw [(List.cons.inj h).1]⟩

theorem unescNL_cons_cons (c₁ c₂ : Char) (rest : List Char) :
    unescNL (c₁ :: c₂ :: rest) =
      if c₁ = '\\' ∧ c₂ = 'n' then '\n' :: unescNL rest
      else c₁ :: unescNL (c₂ :: rest) := by
  rfl

/-- Un-escaping inverts the controller's newline escaping on every token that
does not already contain the literal two-character sequence backslash-`n`. -/
theorem unescNL_escNL {t : List Char} (h : hasBackslashN t = false) :
    unescNL (escNL t) = t := by
  induction t with
  | nil => rfl
  | cons c rest ih =>
      have hrest := hasBackslashN_cons_false h
      by_cases hc : c = '\n'
      · subst hc
        simp only [escNL, if_pos rfl, unescNL_cons_cons, and_self, if_pos trivial]
        rw [ih hrest]
      · rw [escNL, if_neg hc]
        cases hL : escNL rest with
        | nil =>
            rw [escNL_eq_nil_iff.mp hL]
            rfl
        | cons d L =>
            have hnot : ¬(c = '\\' ∧ d = 'n') := by
              rintro ⟨rfl, rfl⟩
              rcases escNL_head hL with hd | ⟨rs, hrs⟩
              · exact absurd hd (by decide)
              · rw [hrs] at h
                simp [hasBackslashN] at h
            rw [unescNL_cons_cons, if_neg hnot, ← hL, ih hrest]

theorem unescapeToken_escapeToken {s : String}
    (h : hasBackslashN s.data = false) : unescapeToken (escapeToken s) = s := by
  cases s with
  | mk data =>
      show String.mk (unescNL (escNL data)) = ⟨data⟩
      rw [unescNL_escNL h]

theorem foldl_append_shift (l : List String) (a : String) :
    l.foldl (· ++ ·) a = a ++ l.foldl (· ++ ·) "" := by
  induction l generalizing a with
  | nil => simp [String.append_empty]
  | cons s t ih =>
      simp only [List.foldl]
      rw [ih (a ++ s), ih ("" ++ s), String.empty_append, String.append_assoc]

theorem join_cons (s : String) (l : List String) :
    String.join (s :: l) = s ++ String.join l := by
  show (s :: l).foldl (· ++ ·) "" = s ++ l.foldl (· ++ ·) ""
  simp only [List.foldl]
  rw [foldl_append_shift l ("" ++ s), String.empty_append]

theorem chatStreamRun_snd (chunks : List (Option String)) (acc : String) :
    (chatStreamRun chunks acc).2 = acc ++ String.join (chatStreamRun chunks acc).1 := by
  induction chunks generalizing acc with
  | nil => simp [chatStreamRun, String.join, String.append_empty]
  | cons part rest ih =>
      simp only [chatStreamRun]
      by_cases ht : part.getD "" = ""
      · rw [if_pos ht]
        exact ih acc
      · rw [if_neg ht]
        show (chatStreamRun rest (acc ++ part.getD "")).2 =
          acc ++ String.join (part.getD "" :: (chatStreamRun rest (acc ++ part.getD "")).1)
        rw [ih (acc ++ part.getD ""), join_cons, String.append_assoc]

/-- The accumulated answer of the streaming generator is the concatenation of
the tokens it yields, in order. -/
theorem fullAnswer_eq_join (chunks : List (Option String)) :
    fullAnswer chunks = String.join (serviceTokens chunks) := by
  show (chatStreamRun chunks "").2 = String.join (chatStreamRun chunks "").1
  rw [chatStreamRun_snd, String.empty_append]

theorem writeFrames_eq (tokens : List String) :
    writeFrames tokens =
      tokens.map (fun t => "data:" ++ escapeToken t ++ "\n\n") ++ ["data:[DONE]\n\n"] := by
  induction tokens with
  | nil => rfl
  | cons t rest ih => simp [writeFrames, ih]

/-- Claim C1, counterexample: the newline escaping is not injective, so the
round trip promised by the claim fails on a token that already contains the
literal two-character sequence backslash-`n`.  The upstream chunk here
carries the token `\n` (backslash followed by the letter n); the endpoint
frames it unchanged, the claimed un-escaping turns it into a newline, and the
concatenation of un-escaped payloads differs from the upstream's accumulated
text. -/
theorem chatStream_sse_roundtrip_cex :
    serviceTokens [some "\\n"] = ["\\n"] ∧
    sseOutput [some "\\n"] = ["data:\\n\n\n", "data:[DONE]\n\n"] ∧
    String.join (((serviceTokens [some "\\n"]).map escapeToken).map unescapeToken) ≠
      fullAnswer [some "\\n"] := by
  decide

/-- Claim C1 (amended): for every finite sequence of upstream chunks the
streaming endpoint writes, in arrival order, one `data:` frame per forwarded
token, each payload the token with newlines escaped to backslash-`n` and each
frame terminated by a blank line, followed by the terminal `data:[DONE]`
frame; and provided no forwarded token itself contains the literal
backslash-`n` sequence, concatenating the payloads after replacing each
backslash-`n` escape with a newline yields exactly the upstream's full
accumulated text. -/
theorem chatStream_sse_framing (chunks : List (Option String)) :
    sseOutput chunks =
      (serviceTokens chunks).map (fun t => "data:" ++ escapeToken t ++ "\n\n") ++
        ["data:[DONE]\n\n"] ∧
    ((∀ t ∈ serviceTokens chunks, hasBackslashN t.data = false) →
      String.join (((serviceTokens chunks).map escapeToken).map unescapeToken) =
        fullAnswer chunks) := by
  refine ⟨writeFrames_eq _, fun h => ?_⟩
  rw [List.map_map]
  have hmap : (serviceTokens chunks).map (unescapeToken ∘ escapeToken) =
      (serviceTokens chunks).map id := by
    apply List.map_congr_left
    intro t ht
    exact unescapeToken_escapeToken (h t ht)
  rw [hmap, List.map_id, fullAnswer_eq_join]

/-- Witness for the amended claim C1 at a concrete chunk sequence containing
a skipped empty chunk, a missing delta and a token with an embedded
newline. -/
theorem chatStream_sse_framing_witness :
    (∀ t ∈ serviceTokens [some "Hel", none, some "lo\nworld", some ""],
      hasBackslashN t.data = false) ∧
    String.join (((serviceTokens [some "Hel", none, some "lo\nworld", some ""]).map
        escapeToken).map unescapeToken) =
      fullAnswer [some "Hel", none, some "lo\nworld", some ""] :=
  ⟨by decide, (chatStream_sse_framing [some "Hel", none, some "lo\nworld", some ""]).2 (by decide)⟩

theorem ensureChatRecord_messages (chatId : Option String) (userId : String)
    (title : Option String) (store : Store) :
    (ensureChatRecord chatId userId title store).2.messages = store.messages := by
  by_cases h : jsTruthyStr chatId <;> simp [ensureChatRecord, h]

theorem ensureChatRecord_none (userId : String) (title : Option String)
    (store : Store) :
    ensureChatRecord none userId title store =
      (toString store.nextChatId,
        ⟨store.chats ++ [⟨toString store.nextChatId, userId, title.getD "New chat"⟩],
          store.messages, store.nextChatId + 1⟩) := by
  simp [ensureChatRecord, jsTruthyStr]

theorem jsTruthyStr_some_of_ne {uid : String} (hne : uid ≠ "") :
    jsTruthyStr (some uid) = true := by
  have hie : uid.isEmpty = false := by
    cases hb : uid.isEmpty
    · rfl
    · exact absurd ((String.isEmpty_iff uid).mp hb) hne
  simp [jsTruthyStr, hie]

theorem chat_userId_some (messages : List ChatMessage) (options : ChatOptions)
    (completion : AssistantMessage) (store : Store) (uid : String)
    (latestMsg : ChatMessage) (huid : options.userId = some uid) (hne : uid ≠ "")
    (hlast : messages.getLast? = some latestMsg) :
    chat messages options completion store =
      .ok (completion.content.getD "",
        ⟨(ensureChatRecord options.chatId uid (some (deriveTitle messages)) store).2.chats,
          (ensureChatRecord options.chatId uid (some (deriveTitle messages)) store).2.messages ++
            [⟨(ensureChatRecord options.chatId uid (some (deriveTitle messages)) store).1,
              latestMsg.role, some latestMsg.content, options.model.getD "gpt-4o"⟩,
             ⟨(ensureChatRecord options.chatId uid (some (deriveTitle messages)) store).1,
              Role.assistant, completion.content, options.model.getD "gpt-4o"⟩],
          (ensureChatRecord options.chatId uid (some (deriveTitle messages)) store).2.nextChatId⟩) := by
  simp only [chat, huid, jsTruthyStr_some_of_ne hne, if_true, Option.getD_some, hlast]

theorem persistIfNeeded_userId_some (messages : List ChatMessage) (a : String)
    (options : ChatOptions) (store : Store) (uid : String)
    (latestMsg : ChatMessage) (huid : options.userId = some uid) (hne : uid ≠ "")
    (hlast : messages.getLast? = some latestMsg) :
    persistIfNeeded messages a options store =
      .ok ⟨(ensureChatRecord options.chatId uid (some (deriveTitle messages)) store).2.chats,
        (ensureChatRecord options.chatId uid (some (deriveTitle messages)) store).2.messages ++
          [⟨(ensureChatRecord options.chatId uid (some (deriveTitle messages)) store).1,
            latestMsg.role, some latestMsg.content, options.model.getD "gpt-4o"⟩,
           ⟨(ensureChatRecord options.chatId uid (some (deriveTitle messages)) store).1,
            Role.assistant, some a, options.model.getD "gpt-4o"⟩],
        (ensureChatRecord options.chatId uid (some (deriveTitle messages)) store).2.nextChatId⟩ := by
  simp only [persistIfNeeded, huid, jsTruthyStr_some_of_ne hne, if_true, Option.getD_some, hlast]

/-- Claim C3: the persistence performed by the streaming path after the
upstream stream ends is identical to the persistence performed inline by the
synchronous path — for every history, option set and assistant text, the
synchronous operation run with an upstream completion whose content is that
text is exactly `persistIfNeeded` followed by returning the text: the same
title, the same chat-record resolution, the same two inserted rows. -/
theorem chat_eq_persistIfNeeded (messages : List ChatMessage)
    (options : ChatOptions) (s : String) (store : Store) :
    chat messages options ⟨some s⟩ store =
      (persistIfNeeded messages s options store).map (fun st => (s, st)) := by
  simp only [chat, persistIfNeeded]
  by_cases hu : jsTruthyStr options.userId
  · rw [if_pos hu, if_pos hu]
    cases hm : messages.getLast? <;> simp [hm, Except.map]
  · rw [if_neg hu, if_neg hu]
    rfl

/-- Claim C2: anonymous calls persist nothing — with no user id both the
synchronous and the streaming operation leave the store unchanged and return
only the assistant text, respectively the token stream; and when a (truthy)
user id is supplied both paths append exactly the pair of rows, the latest
user message followed by the assistant reply, to the `messages` table. -/
theorem chat_persistence_only_with_userId (messages : List ChatMessage)
    (options : ChatOptions) (completion : AssistantMessage) (store : Store)
    (chunks : List (Option String)) :
    (options.userId = none →
      chat messages options completion store =
        .ok (completion.content.getD "", store) ∧
      chatStreamResult chunks messages options store =
        (serviceTokens chunks, .ok store)) ∧
    (∀ uid latestMsg, options.userId = some uid → uid ≠ "" →
      messages.getLast? = some latestMsg →
      (∃ chatId st, chat messages options completion store =
          .ok (completion.content.getD "", st) ∧
        st.messages = store.messages ++
          [⟨chatId, latestMsg.role, some latestMsg.content, options.model.getD "gpt-4o"⟩,
           ⟨chatId, Role.assistant, completion.content, options.model.getD "gpt-4o"⟩]) ∧
      (∀ a, ∃ chatId st, persistIfNeeded messages a options store = .ok st ∧
        st.messages = store.messages ++
          [⟨chatId, latestMsg.role, some latestMsg.content, options.model.getD "gpt-4o"⟩,
           ⟨chatId, Role.assistant, some a, options.model.getD "gpt-4o"⟩])) := by
  constructor
  · intro hnone
    have hu : jsTruthyStr options.userId = false := by rw [hnone]; rfl
    constructor
    · simp [chat, hu]
    · simp [chatStreamResult, persistIfNeeded, hu]
  · intro uid latestMsg huid hne hlast
    constructor
    · exact ⟨(ensureChatRecord options.chatId uid (some (deriveTitle messages)) store).1,
        _, chat_userId_some messages options completion store uid latestMsg huid hne hlast,
        by simp [ensureChatRecord_messages]⟩
    · intro a
      exact ⟨(ensureChatRecord options.chatId uid (some (deriveTitle messages)) store).1,
        _, persistIfNeeded_userId_some messages a options store uid latestMsg huid hne hlast,
        by simp [ensureChatRecord_messages]⟩

/-- Witness for claim C2: an anonymous call leaves a concrete store
unchanged, and the same call with a user id appends exactly the user and
assistant rows. -/
theorem chat_persistence_only_with_userId_witness :
    (chat [⟨Role.user, "hey"⟩] ⟨none, none, none⟩ ⟨some "hi"⟩ ⟨[], [], 0⟩ =
        .ok ("hi", ⟨[], [], 0⟩) ∧
      chatStreamResult [some "hi"] [⟨Role.user, "hey"⟩] ⟨none, none, none⟩ ⟨[], [], 0⟩ =
        (serviceTokens [some "hi"], .ok ⟨[], [], 0⟩)) ∧
    (∃ chatId st,
      chat [⟨Role.user, "hey"⟩] ⟨none, some "u", none⟩ ⟨some "hi"⟩ ⟨[], [], 0⟩ =
        .ok ((some "hi" : Option String).getD "", st) ∧
      st.messages = ([] : List MessageRow) ++
        [⟨chatId, Role.user, some "hey", "gpt-4o"⟩,
         ⟨chatId, Role.assistant, some "hi", "gpt-4o"⟩]) :=
  ⟨(chat_persistence_only_with_userId [⟨Role.user, "hey"⟩] ⟨none, none, none⟩
      ⟨some "hi"⟩ ⟨[], [], 0⟩ [some "hi"]).1 rfl,
    (((chat_persistence_only_with_userId [⟨Role.user, "hey"⟩] ⟨none, some "u", none⟩
      ⟨some "hi"⟩ ⟨[], [], 0⟩ [some "hi"]).2 "u" ⟨Role.user, "hey"⟩ rfl
        (by decide) rfl).1)⟩

/-- Modelled from the spec: the title claim C5 predicts — the first 25
characters of the content of the first user-role message of the history,
and the default "New chat" when no user-role message exists. -/
def claimTitle (messages : List ChatMessage) : String :=
  match messages.find? (fun m => m.role = Role.user) with
  | some m => m.content.take 25
  | none => "New chat"

/-- Claim C5, counterexample: a non-empty history without a user-role
message.  The claim predicts the default title "New chat", but both paths
derive the title from the first message of the history (`find(...) ??
messages[0]`), here the system message content "hello". -/
theorem chat_created_title_cex :
    (chat [⟨Role.system, "hello"⟩] ⟨none, some "u", none⟩ ⟨some "hi"⟩
        ⟨[], [], 0⟩).toOption.map (fun p => p.2.chats.map ChatRow.title) =
      some ["hello"] ∧
    claimTitle [⟨Role.system, "hello"⟩] = "New chat" ∧
    ("hello" : String) ≠ "New chat" := by
  decide

/-- Claim C5 (amended): for every non-empty history processed with a
(truthy) user id and no pre-existing chat id, both the synchronous and the
streaming persistence create the chat record with a title equal to the first
25 characters of the content of the first user-role message; when no
user-role message exists the title falls back to the first 25 characters of
the first message's content (the default "New chat" would apply only to an
empty history). -/
theorem chat_created_title (messages : List ChatMessage) (options : ChatOptions)
    (completion : AssistantMessage) (store : Store) (uid : String)
    (firstMsg latestMsg : ChatMessage)
    (huid : options.userId = some uid) (hne : uid ≠ "")
    (hchat : options.chatId = none)
    (hfirst : messages.head? = some firstMsg)
    (hlast : messages.getLast? = some latestMsg) :
    (∃ st ans, chat messages options completion store = .ok (ans, st) ∧
      st.chats = store.chats ++
        [⟨toString store.nextChatId, uid,
          ((messages.find? (fun m => m.role = Role.user)).getD firstMsg).content.take 25⟩]) ∧
    (∀ a, ∃ st, persistIfNeeded messages a options store = .ok st ∧
      st.chats = store.chats ++
        [⟨toString store.nextChatId, uid,
          ((messages.find? (fun m => m.role = Role.user)).getD firstMsg).content.take 25⟩]) := by
  have htitle : deriveTitle messages =
      ((messages.find? (fun m => m.role = Role.user)).getD firstMsg).content.take 25 := by
    unfold deriveTitle
    cases hf : messages.find? (fun m => m.role = Role.user) with
    | some m => simp [Option.orElse]
    | none => simp [Option.orElse, hfirst]
  have hchats : (ensureChatRecord options.chatId uid
      (some (deriveTitle messages)) store).2.chats = store.chats ++
        [⟨toString store.nextChatId, uid,
          ((messages.find? (fun m => m.role = Role.user)).getD firstMsg).content.take 25⟩] := by
    rw [hchat, ensureChatRecord_none]
    simp [htitle]
  constructor
  · exact ⟨_, _,
      chat_userId_some messages options completion store uid latestMsg huid hne hlast,
      hchats⟩
  · intro a
    exact ⟨_,
      persistIfNeeded_userId_some messages a options store uid latestMsg huid hne hlast,
      hchats⟩

/-- Witness for the amended claim C5: a history whose first user-role
message is preceded by a system message; the created chat carries the first
25 characters of the user message. -/
theorem chat_created_title_witness :
    ∃ st ans,
      chat [⟨Role.system, "be nice"⟩, ⟨Role.user, "hello there, how is the weather today?"⟩]
        ⟨none, some "u", none⟩ ⟨some "hi"⟩ ⟨[], [], 0⟩ = .ok (ans, st) ∧
      st.chats = ([] : List ChatRow) ++
        [⟨toString (0 : Nat), "u",
          ((([⟨Role.system, "be nice"⟩,
            ⟨Role.user, "hello there, how is the weather today?"⟩] :
              List ChatMessage).find?
              (fun m => m.role = Role.user)).getD
                ⟨Role.system, "be nice"⟩).content.take 25⟩] :=
  (chat_created_title
    [⟨Role.system, "be nice"⟩, ⟨Role.user, "hello there, how is the weather today?"⟩]
    ⟨none, some "u", none⟩ ⟨some "hi"⟩ ⟨[], [], 0⟩ "u"
    ⟨Role.system, "be nice"⟩ ⟨Role.user, "hello there, how is the weather today?"⟩
    rfl (by decide) rfl rfl rfl).1

theorem chatStreamEvents_decomposition (messages : List ChatMessage)
    (options : ChatOptions) (chunks : List (Option String)) (acc : String) :
    chatStreamEvents messages options chunks acc =
      (chatStreamRun chunks acc).1.map StreamEvent.yield ++
        persistWriteEvents messages options := by
  induction chunks generalizing acc with
  | nil => simp [chatStreamEvents, chatStreamRun]
  | cons part rest ih =>
      simp only [chatStreamEvents, chatStreamRun]
      by_cases ht : part.getD "" = ""
      · rw [if_pos ht, if_pos ht]
        exact ih acc
      · rw [if_neg ht, if_neg ht]
        simp only [List.map_cons, List.cons_append]
        rw [ih (acc ++ part.getD "")]

/-- Claim C8: the streaming generator forwards the upstream tokens in strict
arrival order (its event trace is exactly the yields of the arrival-ordered
tokens followed by the persistence step), and every event after the yields
is a storage write — no storage write occurs before the last token has been
yielded. -/
theorem chatStream_fifo_persist_after_drain (messages : List ChatMessage)
    (options : ChatOptions) (chunks : List (Option String)) :
    chatStreamEvents messages options chunks "" =
      (serviceTokens chunks).map StreamEvent.yield ++
        persistWriteEvents messages options ∧
    (persistWriteEvents messages options).all
      (fun e => e == StreamEvent.write) = true := by
  constructor
  · exact chatStreamEvents_decomposition messages options chunks ""
  · by_cases hu : jsTruthyStr options.userId
    · by_cases hc : jsTruthyStr options.chatId <;>
        cases hm : messages.getLast? <;>
          simp [persistWriteEvents, hu, hc, hm] <;> decide
    · simp [persistWriteEvents, hu]

/-- Claim C6: the strict JWT guard behaves exactly as the contract states —
`OPTIONS` requests are allowed unconditionally; otherwise a missing header,
a scheme other than exactly `Bearer`, an empty token part, or failed
signature verification each deny, and successful verification attaches the
decoded claims and allows. -/
theorem jwtGuard_matches_spec (req : GuardRequest)
    (verify : String → Option TokenClaims) :
    canActivateJwt req verify = jwtGuardSpec req verify := by
  unfold canActivateJwt jwtGuardSpec
  by_cases hm : req.method = "OPTIONS"
  · rw [if_pos hm, if_pos hm]
  · rw [if_neg hm, if_neg hm]
    cases ha : req.authorization with
    | none => simp [bearerTokenOf, ha, jsTruthyStr]
    | some h =>
        by_cases hh : h = ""
        · subst hh
          have hsplit : jsSplitSpace "" = [""] := by decide
          simp [bearerTokenOf, ha, jsTruthyStr, hsplit]
        · have htr : jsTruthyStr (some h) = true := jsTruthyStr_some_of_ne hh
          have hie : ("" : String).isEmpty = true := by decide
          simp only [bearerTokenOf, ha, htr, Option.getD_some, Bool.not_true,
            Bool.false_eq_true, if_false, List.get?_eq_getElem?]
          by_cases hs : (jsSplitSpace h)[0]? = some "Bearer"
          · cases hts : (jsSplitSpace h)[1]? with
            | none => simp [hs, hts, jsTruthyStr]
            | some t =>
                by_cases htt : t = ""
                · subst htt
                  simp [hs, hts, jsTruthyStr, hie]
                · simp [hs, hts, jsTruthyStr_some_of_ne htt]
          · simp [hs]

/-- Claim C7, counterexample: a request carrying a present but empty
`Authorization` header.  The claim demands that any request with a header
present undergo the strict guard's verification (which denies here), but the
optional guard's `||`-falsiness test treats the empty header as absent and
allows the request through as anonymous. -/
theorem optionalJwt_empty_header_cex :
    (⟨"POST", some ""⟩ : GuardRequest).authorization ≠ none ∧
    canActivateOptionalJwt ⟨"POST", some ""⟩ (fun _ => none) = (true, none) ∧
    canActivateJwt ⟨"POST", some ""⟩ (fun _ => none) = (false, none) := by
  decide

/-- Claim C7 (amended): the optional guard allows any request whose
`Authorization` header is absent or empty through as anonymous, with no
claims attached; whenever a non-empty header is present it behaves exactly
as the strict guard, denying on a wrong scheme or an invalid token. -/
theorem optionalJwt_guard (req : GuardRequest)
    (verify : String → Option TokenClaims) :
    (jsTruthyStr req.authorization = false →
      canActivateOptionalJwt req verify = (true, none)) ∧
    (jsTruthyStr req.authorization = true →
      canActivateOptionalJwt req verify = canActivateJwt req verify) := by
  constructor <;> intro h <;> simp [canActivateOptionalJwt, h]

/-- Witness for the amended claim C7: a header-less request passes through
as anonymous, and a request with a non-empty header gets the strict guard's
verdict. -/
theorem optionalJwt_guard_witness :
    (jsTruthyStr (⟨"POST", none⟩ : GuardRequest).authorization = false ∧
      canActivateOptionalJwt ⟨"POST", none⟩ (fun _ => none) = (true, none)) ∧
    (jsTruthyStr (⟨"POST", some "Bearer tok"⟩ : GuardRequest).authorization = true ∧
      canActivateOptionalJwt ⟨"POST", some "Bearer tok"⟩ (fun _ => none) =
        canActivateJwt ⟨"POST", some "Bearer tok"⟩ (fun _ => none)) :=
  ⟨⟨by decide, (optionalJwt_guard ⟨"POST", none⟩ (fun _ => none)).1 (by decide)⟩,
   ⟨by decide, (optionalJwt_guard ⟨"POST", some "Bearer tok"⟩ (fun _ => none)).2 (by decide)⟩⟩

/-- Claim C9: a failing profile lookup (a thrown exception, or a query
resolving with an error and any data) never escapes the roles guard — the
guard's verdict is exactly the verdict it gives when the lookup succeeds but
finds no row, for every required-role set and caller. -/
theorem rolesGuard_swallows_lookup_failures (required : Option (List String))
    (user : Option TokenClaims) (d : Option (Option String)) :
    canActivateRoles required user .throws =
      canActivateRoles required user (.result false none) ∧
    canActivateRoles required user (.result true d) =
      canActivateRoles required user (.result false none) := by
  cases required with
  | none => exact ⟨rfl, rfl⟩
  | some rs =>
      cases user with
      | none => exact ⟨rfl, rfl⟩
      | some u => exact ⟨rfl, rfl⟩

/-- Claim C4, counterexample: the required-role set containing the empty
string, a caller with no role claim and a profile row whose role is the
empty string.  Under the claim's contract the resolved role `""` is a member
of the required set, so the guard should allow; the code's final JavaScript
truthiness test `if (!role) return false` denies it. -/
theorem rolesGuard_spec_cex :
    rolesGuardSpec (some [""]) (some ⟨some "u1", none, none⟩)
      (.result false (some (some ""))) = true ∧
    canActivateRoles (some [""]) (some ⟨some "u1", none, none⟩)
      (.result false (some (some ""))) = false := by
  decide

theorem roleFinalCheck_eq (rs : List String) (hreq : rs.contains "" = false)
    (x : Option String) :
    (match x with
     | none => false
     | some r => if r.isEmpty then false else rs.contains r) =
    (match x with
     | none => false
     | some r => rs.contains r) := by
  cases x with
  | none => rfl
  | some r =>
      show (if r.isEmpty = true then false else rs.contains r) = rs.contains r
      by_cases hr : r.isEmpty = true
      · have hre : r = "" := (String.isEmpty_iff r).mp hr
        subst hre
        rw [if_pos hr, hreq]
      · rw [if_neg hr]

/-- Claim C4 (amended): the role guard implements exactly the claimed
contract — allow on an absent or empty required-role set, resolve the role
first from token claims and then (when the claim is falsy or not in the
required set) from the profile store keyed by the subject id, deny when no
role resolves, and otherwise allow exactly on case-sensitive membership —
provided the empty string is not among the required roles and the subject
claim, when present, is non-empty. -/
theorem rolesGuard_matches_spec (required : Option (List String))
    (user : Option TokenClaims) (lookup : ProfileLookup)
    (hreq : (required.getD []).contains "" = false)
    (hsub : ∀ u, user = some u → u.sub ≠ some "") :
    canActivateRoles required user lookup = rolesGuardSpec required user lookup := by
  cases required with
  | none => rfl
  | some rs =>
      have hrs : rs.contains "" = false := hreq
      by_cases hlen : rs.length = 0
      · simp [canActivateRoles, rolesGuardSpec, hlen]
      · cases user with
        | none => simp [canActivateRoles, rolesGuardSpec, hlen]
        | some u =>
            simp only [canActivateRoles, rolesGuardSpec, specResolveRole,
              claimDerivedRole, specDbRole]
            rw [if_neg hlen, if_neg hlen]
            by_cases h1 : (jsTruthyStr (jsOrStr u.role u.appMetadataRole) &&
                (match jsOrStr u.role u.appMetadataRole with
                 | some r => rs.contains r
                 | none => false)) = true
            · have h1a := (Bool.and_eq_true _ _).mp h1
              have hcond : ((!jsTruthyStr (jsOrStr u.role u.appMetadataRole) ||
                  !(match jsOrStr u.role u.appMetadataRole with
                    | some r => rs.contains r
                    | none => false)) && jsTruthyStr u.sub) = false := by
                rw [h1a.1, h1a.2]
                rfl
              simp only [h1, if_true, hcond, Bool.false_eq_true, if_false]
              cases hc : jsOrStr u.role u.appMetadataRole with
              | none => rfl
              | some r =>
                  rw [hc] at h1a
                  have hmem : rs.contains r = true := h1a.2
                  have hrne : r ≠ "" := by
                    intro hre
                    rw [hre, hrs] at hmem
                    exact Bool.noConfusion hmem
                  have hrie : r.isEmpty = false := by
                    cases hb : r.isEmpty
                    · rfl
                    · exact absurd ((String.isEmpty_iff r).mp hb) hrne
                  simp [hrie]
            · have h1f : (jsTruthyStr (jsOrStr u.role u.appMetadataRole) &&
                  (match jsOrStr u.role u.appMetadataRole with
                   | some r => rs.contains r
                   | none => false)) = false := by
                cases hb : (jsTruthyStr (jsOrStr u.role u.appMetadataRole) &&
                  (match jsOrStr u.role u.appMetadataRole with
                   | some r => rs.contains r
                   | none => false))
                · rfl
                · exact absurd hb h1
              have hcond : (!jsTruthyStr (jsOrStr u.role u.appMetadataRole) ||
                  !(match jsOrStr u.role u.appMetadataRole with
                    | some r => rs.contains r
                    | none => false)) = true := by
                rw [← Bool.not_and, h1f]
                rfl
              simp only [h1f, Bool.false_eq_true, if_false, hcond, Bool.true_and]
              cases hsu : u.sub with
              | none =>
                  simp only [jsTruthyStr, Bool.false_eq_true, if_false]
                  exact roleFinalCheck_eq rs hrs _
              | some s =>
                  have hsne : s ≠ "" := by
                    intro hse
                    exact hsub u rfl (by rw [hsu, hse])
                  simp only [jsTruthyStr_some_of_ne hsne, if_true]
                  cases lookup with
                  | throws => exact roleFinalCheck_eq rs hrs _
                  | result err data =>
                      cases err with
                      | true => exact roleFinalCheck_eq rs hrs _
                      | false =>
                          cases data with
                          | none => exact roleFinalCheck_eq rs hrs _
                          | some row =>
                              cases row with
                              | none => exact roleFinalCheck_eq rs hrs _
                              | some dbRole =>
                                  simp only [Option.some_bind]
                                  exact roleFinalCheck_eq rs hrs (some dbRole)

/-- Witness for the amended claim C4: a caller whose token claim `user` is
not in the required set, resolved to `admin` by the profile lookup; code and
contract agree. -/
theorem rolesGuard_matches_spec_witness :
    ((some ["admin"] : Option (List String)).getD []).contains "" = false ∧
    canActivateRoles (some ["admin"]) (some ⟨some "u1", some "user", none⟩)
        (.result false (some (some "admin"))) =
      rolesGuardSpec (some ["admin"]) (some ⟨some "u1", some "user", none⟩)
        (.result false (some (some "admin"))) :=
  ⟨by decide,
    rolesGuard_matches_spec (some ["admin"]) (some ⟨some "u1", some "user", none⟩)
      (.result false (some (some "admin"))) (by decide)
      (fun u hu => by cases hu; decide)⟩

/-- Claim C10: `renameChat` and `deleteChat` touch only the chat rows
matching both the given chat id and the given owning user id — renaming
preserves the table's length, the message table and every non-matching row
in place, and deletion removes no non-matching row and invents none, so a
caller can never rename or delete another user's chat. -/
theorem renameChat_deleteChat_frame (store : Store) (cid uid t : String) :
    ((renameChat cid uid t store).chats.length = store.chats.length ∧
      (renameChat cid uid t store).messages = store.messages ∧
      ∀ i c, store.chats.get? i = some c → ¬(c.id = cid ∧ c.user_id = uid) →
        (renameChat cid uid t store).chats.get? i = some c) ∧
    ((deleteChat cid uid store).messages = store.messages ∧
      (∀ c, c ∈ (deleteChat cid uid store).chats → c ∈ store.chats) ∧
      ∀ c, c ∈ store.chats → ¬(c.id = cid ∧ c.user_id = uid) →
        c ∈ (deleteChat cid uid store).chats) := by
  refine ⟨⟨by simp [renameChat], rfl, ?_⟩, rfl, ?_, ?_⟩
  · intro i c hc hnot
    rw [List.get?_eq_getElem?] at hc
    simp only [renameChat, List.get?_eq_getElem?, List.getElem?_map, hc, Option.map_some']
    rw [if_neg hnot]
  · intro c hc
    exact (List.mem_filter.mp hc).1
  · intro c hc hnot
    refine List.mem_filter.mpr ⟨hc, ?_⟩
    simp [hnot]

/-- Witness for claim C10: two chats share the id `c1` but belong to
different users; renaming and deleting with `alice`'s credentials leaves
`bob`'s chat untouched. -/
theorem renameChat_deleteChat_frame_witness :
    (renameChat "c1" "alice" "new title"
        ⟨[⟨"c1", "alice", "t1"⟩, ⟨"c1", "bob", "t2"⟩], [], 0⟩).chats.get? 1 =
      some ⟨"c1", "bob", "t2"⟩ ∧
    (⟨"c1", "bob", "t2"⟩ : ChatRow) ∈
      (deleteChat "c1" "alice"
        ⟨[⟨"c1", "alice", "t1"⟩, ⟨"c1", "bob", "t2"⟩], [], 0⟩).chats :=
  ⟨(renameChat_deleteChat_frame ⟨[⟨"c1", "alice", "t1"⟩, ⟨"c1", "bob", "t2"⟩], [], 0⟩
      "c1" "alice" "new title").1.2.2 1 ⟨"c1", "bob", "t2"⟩ (by decide) (by decide),
    (renameChat_deleteChat_frame ⟨[⟨"c1", "alice", "t1"⟩, ⟨"c1", "bob", "t2"⟩], [], 0⟩
      "c1" "alice" "new title").2.2.2 ⟨"c1", "bob", "t2"⟩ (by decide) (by decide)⟩

end SafarGPT
